import Mathlib

/-!
Verification of the BuidlGuidl client supervisor, secret store and
configuration code (`index.js`, `ethereum_client_scripts/secureStore.js`,
`ethereum_client_scripts/keyManager.js`,
`ethereum_client_scripts/lighthouse_validator.js`, `commandLineOptions.js`)
against its natural-language specification.

The JavaScript is shallowly embedded: module-level mutable state becomes an
explicit state record, the signal/exit handlers become a step function on
that record, and filesystem side effects are recorded as an explicit effect
trace.  Each definition is translated from the corresponding source
function; theorems settle the specification claims.
-/

namespace BGClient

/-! ## Process supervisor (`index.js`)

`index.js` keeps four child-process handles (`executionChild`,
`consensusChild`, `validatorChild`, `mevBoostChild`), four `…Exited`
booleans, and the `isExiting` flag.  `handleExit` is registered for
SIGINT/SIGTERM/SIGHUP/SIGUSR2, for `process.on("exit")` (guarded by
`!isExiting`), for `uncaughtException` and for `unhandledRejection`.
Side effects performed by the supervisor are recorded in an effect trace.
-/

/-- The four supervised workload roles. -/
inductive Role
  | execution
  | consensus
  | validator
  | mevBoost
deriving DecidableEq, Repr, BEq

/-- Observable side effects of the supervisor, in program order. -/
inductive Effect
  | deleteOptionsFile
  /-- `child.kill("SIGINT")` scheduled via `setTimeout(…, delayMs)`. -/
  | killSignal (r : Role) (delayMs : Nat)
  | removeLockFile
  | processExit (code : Nat)
  /-- `cleanupSecureDir()` from `secureStore.js`. -/
  | cleanupSecureDir
  /-- `sendTelegramAlert("crash", …)`; `critical` marks the validator alert. -/
  | telegramAlert (critical : Bool)
deriving DecidableEq, Repr

/-- Outcome of `handleExit`'s lock-file ownership check
(`fs.readFileSync(lockFilePath)` compared with `process.pid`). -/
inductive LockCheck
  /-- The lock file is readable and holds this process's PID. -/
  | matches
  /-- The lock file is readable but holds a different PID. -/
  | differs
  /-- Reading the lock file threw (`catch` branch). -/
  | unreadable
deriving DecidableEq, Repr

/-- Module-level state of `index.js`: which children were spawned, which have
exited, the `isExiting` flag, the lock-ownership check outcome, whether
`process.exit` has run, and the accumulated effect trace. -/
structure SupState where
  hasExecution : Bool
  hasConsensus : Bool
  hasValidator : Bool
  hasMevBoost : Bool
  executionExited : Bool
  consensusExited : Bool
  validatorExited : Bool
  mevBoostExited : Bool
  isExiting : Bool
  lockCheck : LockCheck
  terminated : Bool
  effects : List Effect
deriving DecidableEq, Repr

/-- The body of `checkExit()` inside `handleExit`: once every child has
exited it removes the lock file and calls `process.exit(0)`. -/
def checkExitEffects (s : SupState) : List Effect :=
  if s.executionExited && s.consensusExited && s.validatorExited && s.mevBoostExited then
    [Effect.removeLockFile, Effect.processExit 0]
  else
    []

/-- Whether `checkExitEffects` fires, used to track `process.exit(0)`. -/
def checkExitFires (s : SupState) : Bool :=
  s.executionExited && s.consensusExited && s.validatorExited && s.mevBoostExited

/-- The `setTimeout` kill-signal registrations of `handleExit`, in the
source's registration order: validator after 500 ms, then execution,
consensus and MEV-Boost after 750 ms each, each guarded by
`child && !…Exited`. -/
def killRegistrations (s : SupState) : List Effect :=
  (if s.hasValidator && !s.validatorExited then [Effect.killSignal Role.validator 500] else [])
    ++ (if s.hasExecution && !s.executionExited then [Effect.killSignal Role.execution 750] else [])
    ++ (if s.hasConsensus && !s.consensusExited then [Effect.killSignal Role.consensus 750] else [])
    ++ (if s.hasMevBoost && !s.mevBoostExited then [Effect.killSignal Role.mevBoost 750] else [])

/-- `handleExit(exitType)` from `index.js`.  In source order: the
`isExiting` re-entrancy guard; the lock-file PID check (a secondary
instance exits with code 0, an unreadable lock file exits with code 1);
`isExiting = true`; `deleteOptionsFile()`; absent validator/MEV-Boost
children are marked exited; the per-child exit listeners are attached
(marking an absent execution/consensus child exited); the kill signals are
scheduled; finally the initial `checkExit()` runs.  A state whose process
has already terminated can no longer run the handler. -/
def handleExit (s : SupState) : SupState :=
  if s.terminated then s
  else if s.isExiting then s
  else
    match s.lockCheck with
    | LockCheck.differs =>
        { s with terminated := true, effects := s.effects ++ [Effect.processExit 0] }
    | LockCheck.unreadable =>
        { s with terminated := true, effects := s.effects ++ [Effect.processExit 1] }
    | LockCheck.matches =>
        let s1 : SupState :=
          { s with
            isExiting := true
            effects := s.effects ++ [Effect.deleteOptionsFile]
            validatorExited := s.validatorExited || !s.hasValidator
            mevBoostExited := s.mevBoostExited || !s.hasMevBoost }
        let s2 : SupState :=
          { s1 with
            executionExited := s1.executionExited || !s1.hasExecution
            consensusExited := s1.consensusExited || !s1.hasConsensus }
        let s3 : SupState := { s2 with effects := s2.effects ++ killRegistrations s2 }
        { s3 with
          terminated := s3.terminated || checkExitFires s3
          effects := s3.effects ++ checkExitEffects s3 }

/-- The crash-alert condition shared by the `child.on("exit", …)` handlers
of `startClient`, `startValidatorClient` and `startMevBoost`:
`if (!isExiting && code !== null)`. -/
def crashAlert (isExiting : Bool) (code : Option Int) : Bool :=
  !isExiting && code.isSome

/-- Marks role `r`'s exited flag, as the `child.on("exit")` handlers do. -/
def markExited (s : SupState) (r : Role) : SupState :=
  match r with
  | Role.execution => { s with executionExited := true }
  | Role.consensus => { s with consensusExited := true }
  | Role.validator => { s with validatorExited := true }
  | Role.mevBoost => { s with mevBoostExited := true }

/-- A child's `exit` event: the `startClient`/`startValidatorClient`/
`startMevBoost` listener sends a crash alert iff `!isExiting && code !==
null` (critical for the validator role) and marks the role exited; when a
shutdown is in progress the listeners attached by `handleExit` additionally
run `checkExit()`. -/
def childExitStep (s : SupState) (r : Role) (code : Option Int) : SupState :=
  let alerts : List Effect :=
    if crashAlert s.isExiting code then [Effect.telegramAlert (r == Role.validator)] else []
  let s1 : SupState := markExited { s with effects := s.effects ++ alerts } r
  if s1.isExiting then
    { s1 with
      terminated := s1.terminated || checkExitFires s1
      effects := s1.effects ++ checkExitEffects s1 }
  else
    s1

/-- External events the supervisor reacts to. -/
inductive Event
  /-- One of the handled termination signals SIGINT/SIGTERM/SIGHUP/SIGUSR2. -/
  | signal
  /-- `process.on("exit")`, which calls `handleExit` unless `isExiting`. -/
  | processExitEvent
  /-- `process.on("uncaughtException")`. -/
  | uncaught
  /-- `process.on("unhandledRejection")`. -/
  | unhandledRejection
  /-- A child process's `exit` event with the given exit code. -/
  | childExit (r : Role) (code : Option Int)
  /-- One tick of the `setInterval` polling loop inside `handleExit`. -/
  | intervalTick
deriving Repr

/-- One supervisor reaction.  All failure paths funnel into `handleExit`;
a terminated process reacts to nothing. -/
def step (s : SupState) (e : Event) : SupState :=
  if s.terminated then s
  else
    match e with
    | Event.signal => handleExit s
    | Event.uncaught => handleExit s
    | Event.unhandledRejection => handleExit s
    | Event.processExitEvent => if s.isExiting then s else handleExit s
    | Event.childExit r code => childExitStep s r code
    | Event.intervalTick =>
        if s.isExiting then
          { s with
            terminated := s.terminated || checkExitFires s
            effects := s.effects ++ checkExitEffects s }
        else
          s

/-- Runs a sequence of events through the supervisor. -/
def run (s : SupState) (es : List Event) : SupState :=
  es.foldl step s

/-- The supervisor's initial module state: the given children spawned, no
child exited, `isExiting = false`, the lock file owned by this process, and
an empty effect trace. -/
def initState (hE hC hV hM : Bool) : SupState :=
  { hasExecution := hE
    hasConsensus := hC
    hasValidator := hV
    hasMevBoost := hM
    executionExited := false
    consensusExited := false
    validatorExited := false
    mevBoostExited := false
    isExiting := false
    lockCheck := LockCheck.matches
    terminated := false
    effects := [] }

/-- The kill signals scheduled by `handleExit` from the initial state with
the given children spawned, as (role, `setTimeout` delay) pairs in
registration order. -/
def killSchedule (hE hC hV hM : Bool) : List (Role × Nat) :=
  (handleExit (initState hE hC hV hM)).effects.filterMap fun e =>
    match e with
    | Effect.killSignal r d => some (r, d)
    | _ => none

/-- Registration position of role `r`'s kill signal in the schedule. -/
def killIdx (sched : List (Role × Nat)) (r : Role) : Option Nat :=
  sched.findIdx? fun p => p.1 == r

/-- The `setTimeout` delay of role `r`'s kill signal. -/
def killDelay (sched : List (Role × Nat)) (r : Role) : Option Nat :=
  (sched.find? fun p => p.1 == r).map Prod.snd

/-- Node.js fires `setTimeout` callbacks ordered by expiry time, and
callbacks with equal delay in registration order; so `a`'s signal is sent
before `b`'s iff both are scheduled and `a` precedes `b` in the
(delay, registration index) lexicographic order. -/
def signaledBefore (sched : List (Role × Nat)) (a b : Role) : Bool :=
  match killIdx sched a, killDelay sched a, killIdx sched b, killDelay sched b with
  | some i, some da, some j, some db =>
      decide (da < db) || (decide (da = db) && decide (i < j))
  | _, _, _, _ => false

theorem handleExit_of_terminated (s : SupState) (h : s.terminated = true) :
    handleExit s = s := by
  simp [handleExit, h]

theorem handleExit_of_isExiting (s : SupState) (h : s.isExiting = true) :
    handleExit s = s := by
  by_cases ht : s.terminated <;> simp [handleExit, h, ht]

theorem handleExit_fixed (s : SupState) :
    (handleExit s).terminated = true ∨ (handleExit s).isExiting = true ∨ handleExit s = s := by
  by_cases ht : s.terminated
  · right; right; exact handleExit_of_terminated s ht
  · by_cases hx : s.isExiting
    · right; right; exact handleExit_of_isExiting s hx
    · cases hl : s.lockCheck
      · right; left
        simp [handleExit, ht, hx, hl]
      · left
        simp [handleExit, ht, hx, hl]
      · left
        simp [handleExit, ht, hx, hl]

/-- **C9.** `requestShutdown` (`handleExit`) is idempotent: a second call
while a shutdown is already in progress is a no-op, so calling it twice in
immediate succession yields the same final state as calling it once — in
particular the effect trace, hence the set of termination signals sent, is
identical. -/
theorem requestShutdown_idempotent (s : SupState) :
    handleExit (handleExit s) = handleExit s
      ∧ (handleExit (handleExit s)).effects = (handleExit s).effects := by
  have h : handleExit (handleExit s) = handleExit s := by
    rcases handleExit_fixed s with h | h | h
    · exact handleExit_of_terminated _ h
    · exact handleExit_of_isExiting _ h
    · rw [h]; exact h
  exact ⟨h, by rw [h]⟩

theorem cleanup_not_mem_checkExit (s : SupState) :
    Effect.cleanupSecureDir ∉ checkExitEffects s := by
  unfold checkExitEffects
  split <;> simp

theorem cleanup_not_mem_kills (s : SupState) :
    Effect.cleanupSecureDir ∉ killRegistrations s := by
  unfold killRegistrations
  split_ifs <;> simp

theorem cleanup_handleExit (s : SupState) (h : Effect.cleanupSecureDir ∉ s.effects) :
    Effect.cleanupSecureDir ∉ (handleExit s).effects := by
  by_cases ht : s.terminated
  · simpa [handleExit, ht] using h
  · by_cases hx : s.isExiting
    · simpa [handleExit, ht, hx] using h
    · cases hl : s.lockCheck <;>
        simp_all [handleExit, ht, hx, hl, cleanup_not_mem_kills, cleanup_not_mem_checkExit]

theorem cleanup_childExitStep (s : SupState) (r : Role) (code : Option Int)
    (h : Effect.cleanupSecureDir ∉ s.effects) :
    Effect.cleanupSecureDir ∉ (childExitStep s r code).effects := by
  unfold childExitStep
  cases r <;>
    simp_all [markExited, crashAlert, cleanup_not_mem_checkExit] <;>
    split_ifs <;>
    simp_all [cleanup_not_mem_checkExit]

theorem cleanup_step (s : SupState) (e : Event) (h : Effect.cleanupSecureDir ∉ s.effects) :
    Effect.cleanupSecureDir ∉ (step s e).effects := by
  by_cases ht : s.terminated
  · simpa [step, ht] using h
  · cases e with
    | signal => simpa [step, ht] using cleanup_handleExit s h
    | uncaught => simpa [step, ht] using cleanup_handleExit s h
    | unhandledRejection => simpa [step, ht] using cleanup_handleExit s h
    | processExitEvent =>
        by_cases hx : s.isExiting
        · simpa [step, ht, hx] using h
        · simpa [step, ht, hx] using cleanup_handleExit s h
    | childExit r code => simpa [step, ht] using cleanup_childExitStep s r code h
    | intervalTick =>
        by_cases hx : s.isExiting <;>
          simp_all [step, ht, hx, cleanup_not_mem_checkExit]

theorem cleanup_run (s : SupState) (es : List Event) (h : Effect.cleanupSecureDir ∉ s.effects) :
    Effect.cleanupSecureDir ∉ (run s es).effects := by
  induction es generalizing s with
  | nil => simpa [run] using h
  | cons e es ih =>
      have : run s (e :: es) = run (step s e) es := by simp [run, List.foldl_cons]
      rw [this]
      exact ih _ (cleanup_step s e h)

/-- **C1.** Along every termination path of the supervisor — any sequence
of handled signals, `process.on("exit")`, uncaught exceptions, unhandled
rejections, child exits and polling ticks — the secure-directory teardown
`cleanupSecureDir()` is invoked zero times: `handleExit` deletes the
options file, schedules kill signals, removes the lock file and exits, but
never calls `cleanupSecureDir`, contradicting the claim that it is invoked
exactly once before the process exits. -/
theorem cleanupSecureDir_never_invoked (hE hC hV hM : Bool) (es : List Event) :
    ((run (initState hE hC hV hM) es).effects).count Effect.cleanupSecureDir = 0 := by
  refine List.count_eq_zero.mpr ?_
  exact cleanup_run _ es (by simp [initState])

/-- **C5.** The kill-signal schedule of `handleExit`: whenever the
respective children are running, the validator is signaled before the
execution and consensus clients (500 ms vs 750 ms delays), the execution
and consensus clients share the same delay (so they may be signaled
concurrently with each other), MEV-Boost is signaled only after both of
them (equal delay, later registration), and every signal is preceded by a
grace delay of at least 500 ms. -/
theorem shutdown_signal_order :
    ∀ hE hC hV hM : Bool,
      ((hV && hE) = true →
        signaledBefore (killSchedule hE hC hV hM) Role.validator Role.execution = true)
      ∧ ((hV && hC) = true →
        signaledBefore (killSchedule hE hC hV hM) Role.validator Role.consensus = true)
      ∧ ((hM && hE) = true →
        signaledBefore (killSchedule hE hC hV hM) Role.execution Role.mevBoost = true)
      ∧ ((hM && hC) = true →
        signaledBefore (killSchedule hE hC hV hM) Role.consensus Role.mevBoost = true)
      ∧ ((hE && hC) = true →
        killDelay (killSchedule hE hC hV hM) Role.execution
          = killDelay (killSchedule hE hC hV hM) Role.consensus)
      ∧ ((killSchedule hE hC hV hM).all fun p => decide (500 ≤ p.2)) = true := by
  intro hE hC hV hM
  cases hE <;> cases hC <;> cases hV <;> cases hM <;> decide

/-- Witness for `shutdown_signal_order` with all four children running. -/
theorem shutdown_signal_order_witness :
    signaledBefore (killSchedule true true true true) Role.validator Role.execution = true
      ∧ signaledBefore (killSchedule true true true true) Role.consensus Role.mevBoost = true := by
  refine ⟨?_, ?_⟩
  · exact (shutdown_signal_order true true true true).1 (by decide)
  · exact (shutdown_signal_order true true true true).2.2.2.1 (by decide)

theorem markExited_effects (s : SupState) (r : Role) :
    (markExited s r).effects = s.effects := by
  cases r <;> rfl

theorem alert_count_checkExit (t : SupState) (b : Bool) :
    (checkExitEffects t).count (Effect.telegramAlert b) = 0 := by
  refine List.count_eq_zero.mpr ?_
  unfold checkExitEffects
  split <;> simp

/-- **C10.** A crash alert for a supervised child is emitted exactly when
the child exits while no shutdown was requested and its exit code is
non-null: the `childExit` step appends exactly one `telegramAlert`
(critical iff the role is the validator) when `isExiting` is false and the
code is not null, and none otherwise — so a signal-terminated child (null
code) or a child exiting during a requested shutdown never alerts. -/
theorem crash_alert_exactly (s : SupState) (r : Role) (code : Option Int)
    (h : s.terminated = false) :
    ((step s (Event.childExit r code)).effects.count (Effect.telegramAlert (r == Role.validator))
        = s.effects.count (Effect.telegramAlert (r == Role.validator))
          + (if s.isExiting = false ∧ code ≠ none then 1 else 0))
      ∧ (crashAlert s.isExiting code = true ↔ (s.isExiting = false ∧ code ≠ none)) := by
  constructor
  · simp only [step, h, Bool.false_eq_true, if_false]
    cases hx : s.isExiting <;> cases hcode : code <;> cases r <;>
      simp [childExitStep, crashAlert, markExited, hx,
        List.count_append, List.count_cons, alert_count_checkExit]
  · cases code <;> cases hx : s.isExiting <;> simp [crashAlert, hx]

/-- Witness for `crash_alert_exactly`: an execution-client crash with exit
code 1 while no shutdown is in progress emits exactly one (non-critical)
alert. -/
theorem crash_alert_exactly_witness :
    (step (initState true true false false) (Event.childExit Role.execution (some 1))).effects.count
        (Effect.telegramAlert false)
      = (initState true true false false).effects.count (Effect.telegramAlert false) + 1 := by
  have h := (crash_alert_exactly (initState true true false false) Role.execution (some 1) rfl).1
  simpa using h

/-! ## Instance lock (`index.js`: `isAlreadyRunning`, `createLockFile`)

The lock file is modelled as `Option Nat` — `some pid` when
`ethereum_clients/script.lock` exists and holds `pid`, `none` when it does
not exist.  `alive pid` models `process.kill(pid, 0)` succeeding (the
`ESRCH` catch branch corresponds to `alive pid = false`).
-/

/-- `isAlreadyRunning()` from `index.js`: if the lock file exists, read its
PID and probe it; a live owner means "already running"; a dead owner's lock
file is `fs.unlinkSync`ed and the check reports not running; a missing lock
file reports not running.  Returns the result together with the lock file
afterwards. -/
def isAlreadyRunning (alive : Nat → Bool) (lock : Option Nat) : Bool × Option Nat :=
  match lock with
  | some pid => if alive pid then (true, some pid) else (false, none)
  | none => (false, none)

/-- `createLockFile()`: `fs.writeFileSync(lockFilePath, process.pid)` — a
plain overwriting write, not an exclusive create. -/
def createLockFile (myPid : Nat) (_lock : Option Nat) : Option Nat :=
  some myPid

/-- The startup flow of `index.js`: `if (!isAlreadyRunning()) {
… createLockFile(); … }` — on a negative check the caller creates the lock
and owns lifecycle control, otherwise it degrades to the dashboard-only
observer.  Returns whether this instance acquired control, and the lock
file afterwards. -/
def acquireInstanceLock (alive : Nat → Bool) (myPid : Nat) (lock : Option Nat) :
    Bool × Option Nat :=
  let res := isAlreadyRunning alive lock
  if res.1 then (false, res.2) else (true, createLockFile myPid res.2)

/-- **C8.** `acquireInstanceLock` fails ("already running") exactly when an
existing lock file names a live owner PID, in which case the lock is left
in place; a lock naming a dead PID is discarded and acquisition succeeds
with a fresh lock owned by the caller; with no lock file acquisition
succeeds. -/
theorem acquireInstanceLock_spec (alive : Nat → Bool) (myPid : Nat) :
    (∀ pid, acquireInstanceLock alive myPid (some pid)
        = if alive pid then (false, some pid) else (true, some myPid))
      ∧ acquireInstanceLock alive myPid none = (true, some myPid) := by
  constructor
  · intro pid
    by_cases h : alive pid <;>
      simp [acquireInstanceLock, isAlreadyRunning, createLockFile, h]
  · rfl

/-- Program counter of one caller running `isAlreadyRunning()` followed,
on a negative result, by `createLockFile()`. -/
inductive AcqPhase
  | start
  | toCreate
  | done (success : Bool)
deriving DecidableEq, Repr

/-- One caller attempting to acquire the instance lock. -/
structure AcqCaller where
  pid : Nat
  phase : AcqPhase
deriving DecidableEq, Repr

/-- One atomic filesystem operation of a caller: from `start`, the whole
`fs.existsSync`/`fs.readFileSync`/`process.kill(pid, 0)` check of
`isAlreadyRunning` (a dead owner's file is unlinked); from `toCreate`, the
separate, non-exclusive `fs.writeFileSync` of `createLockFile`.  The two
operations are distinct filesystem calls in the source, so another caller
can run in between. -/
def acqStep (alive : Nat → Bool) (lock : Option Nat) (c : AcqCaller) :
    Option Nat × AcqCaller :=
  match c.phase with
  | AcqPhase.start =>
      match lock with
      | none => (none, { c with phase := AcqPhase.toCreate })
      | some p =>
          if alive p then (some p, { c with phase := AcqPhase.done false })
          else (none, { c with phase := AcqPhase.toCreate })
  | AcqPhase.toCreate => (some c.pid, { c with phase := AcqPhase.done true })
  | AcqPhase.done _ => (lock, c)

/-- The shared lock file and two concurrent callers. -/
structure AcqWorld where
  lock : Option Nat
  c1 : AcqCaller
  c2 : AcqCaller
deriving DecidableEq, Repr

/-- Runs an interleaving schedule: `true` steps caller 1, `false` steps
caller 2. -/
def runSchedule (alive : Nat → Bool) (w : AcqWorld) : List Bool → AcqWorld
  | [] => w
  | b :: rest =>
      if b then
        let r := acqStep alive w.lock w.c1
        runSchedule alive { w with lock := r.1, c1 := r.2 } rest
      else
        let r := acqStep alive w.lock w.c2
        runSchedule alive { w with lock := r.1, c2 := r.2 } rest

/-- A caller believes it owns the lock when its acquisition completed
successfully. -/
def believesOwner (c : AcqCaller) : Bool :=
  match c.phase with
  | AcqPhase.done true => true
  | _ => false

/-- The interleaving in which both callers run their existence check before
either writes the lock file: check 1, check 2, write 1, write 2, starting
from no lock file, with caller PIDs 101 and 102 (all PIDs alive). -/
def raceWorld : AcqWorld :=
  runSchedule (fun _ => true)
    { lock := none
      c1 := { pid := 101, phase := AcqPhase.start }
      c2 := { pid := 102, phase := AcqPhase.start }
    } [true, false, true, false]

/-- **C3, counterexample.** Because `isAlreadyRunning` and `createLockFile`
are separate existence-check-then-create filesystem calls rather than one
atomic exclusive create, the interleaving `raceWorld` ends with both
callers believing they own the lock — refuting the claim that at most one
concurrent call can succeed and that no such window exists. -/
theorem instanceLock_race_counterexample :
    believesOwner raceWorld.c1 = true ∧ believesOwner raceWorld.c2 = true := by
  decide

/-- **C3, amended.** For calls that do not interleave (each caller's
check-then-create completes before the next begins), at most one caller
acquires the lock while the owner's PID is alive: after caller 1 completes
successfully, caller 2's check finds the live owner and fails. -/
theorem acquireInstanceLock_sequential (alive : Nat → Bool) (p1 p2 : Nat)
    (h : alive p1 = true) :
    believesOwner (runSchedule alive
        { lock := none
          c1 := { pid := p1, phase := AcqPhase.start }
          c2 := { pid := p2, phase := AcqPhase.start }
        } [true, true, false, false]).c1 = true
      ∧ believesOwner (runSchedule alive
          { lock := none
            c1 := { pid := p1, phase := AcqPhase.start }
            c2 := { pid := p2, phase := AcqPhase.start }
          } [true, true, false, false]).c2 = false := by
  simp [runSchedule, acqStep, believesOwner, h]

/-- Witness for `acquireInstanceLock_sequential` with PIDs 101 and 102 and
every PID alive. -/
theorem acquireInstanceLock_sequential_witness :
    believesOwner (runSchedule (fun _ => true)
        { lock := none
          c1 := { pid := 101, phase := AcqPhase.start }
          c2 := { pid := 102, phase := AcqPhase.start }
        } [true, true, false, false]).c2 = false :=
  (acquireInstanceLock_sequential (fun _ => true) 101 102 rfl).2

/-! ## Per-entity secret files (`ethereum_client_scripts/lighthouse_validator.js`)

Absolute paths are modelled as segment lists (the path below the
filesystem root).  `path.join` concatenates with `/` and normalizes the
result, resolving `.` and `..` segments.
-/

/-- Splits a character list at `/` separators. -/
def splitOnSlash : List Char → List (List Char)
  | [] => [[]]
  | c :: cs =>
      if c = '/' then [] :: splitOnSlash cs
      else
        match splitOnSlash cs with
        | [] => [[c]]
        | g :: gs => (c :: g) :: gs

/-- Splits a path string into `/`-separated segments. -/
def splitSegs (s : String) : List String :=
  (splitOnSlash s.toList).map List.asString

/-- Node `path` normalization of an absolute path given as segments: `.`
and empty segments vanish, `..` removes the preceding segment. -/
def normalizeSegs (segs : List String) : List String :=
  segs.foldl
    (fun acc seg =>
      if seg = ".." then acc.dropLast
      else if seg = "." || seg = "" then acc
      else acc ++ [seg])
    []

/-- `path.join(dir, name)` for an absolute `dir` (as segments) and a
relative `name`. -/
def pathJoin (dir : List String) (name : String) : List String :=
  normalizeSegs (dir ++ splitSegs name)

/-- Whether path `p` lies inside directory `dir` (segment prefix). -/
def withinDir (dir p : List String) : Bool :=
  dir.isPrefixOf p

/-- The hexadecimal-only allowed-character policy that the specification
(`materializePerEntitySecret`, property P5) requires of an entity
identifier before it may be used in a file name: non-empty and consisting
of `[0-9a-fA-F]` only. -/
def isHexOnly (s : String) : Bool :=
  !(s = "") && s.toList.all fun c =>
    c.isDigit || (Char.ofNat 97 ≤ c && c ≤ Char.ofNat 102)
      || (Char.ofNat 65 ≤ c && c ≤ Char.ofNat 70)

/-- One keystore JSON file: its file name and its optional `pubkey`
field. -/
structure Keystore where
  name : String
  pubkey : Option String
deriving Repr

/-- The secrets-directory population loop of `lighthouse_validator.js`
(lines 77–90): for each keystore file, read `ksContent.pubkey`; under the
bare truthiness guard `if (pubkey)` (any non-empty string passes) write the
master password to `path.join(secretsDir, "0x" + pubkey)` with mode 0600.
No other validation of `pubkey` is performed before the path is
constructed.  Returns the (resolved path, content) writes in order. -/
def populateSecretsDir (secretsDir : List String) (password : String)
    (keystores : List Keystore) : List (List String × String) :=
  keystores.filterMap fun ks =>
    match ks.pubkey with
    | some pk =>
        if pk = "" then none
        else some (pathJoin secretsDir ("0x" ++ pk), password)
    | none => none

/-- The adversarial `pubkey` of the C2 failing input: enough `..` segments
to climb out of `secretsDir` and out of the secure directory itself. -/
def evilPubkey : String :=
  "../../../../tmp/evil"

/-- The active secure directory (`/dev/shm/bgclient-<pid>`) as segments. -/
def secureDirSegs : List String :=
  ["dev", "shm", "bgclient-1234"]

/-- **C2.** A keystore whose `pubkey` field is `../../../../tmp/evil`
passes the truthiness guard of the secrets population loop — there is no
hexadecimal-only validation — and its secret file write resolves to
`/dev/shm/tmp/evil`, outside the active secure directory
`/dev/shm/bgclient-1234`, refuting the claim that non-hex identifiers are
rejected before a path is constructed and that no secret write escapes the
secure directory. -/
theorem secretFile_path_escape :
    populateSecretsDir (secureDirSegs ++ ["secrets"]) "hunter2hunter2"
        [{ name := "keystore-evil.json", pubkey := some evilPubkey }]
      = [(["dev", "shm", "tmp", "evil"], "hunter2hunter2")]
    ∧ withinDir secureDirSegs
        (pathJoin (secureDirSegs ++ ["secrets"]) ("0x" ++ evilPubkey)) = false
    ∧ isHexOnly evilPubkey = false := by
  refine ⟨?_, ?_, ?_⟩ <;> rfl

/-- A well-formed hexadecimal pubkey stays inside the secrets directory:
the population loop writes it to `secretsDir/0x<pubkey>`.  (Sanity check
that the escape in `secretFile_path_escape` is specific to the adversarial
identifier, not an artifact of the path model.) -/
theorem secretFile_hex_pubkey_within :
    populateSecretsDir (secureDirSegs ++ ["secrets"]) "hunter2hunter2"
        [{ name := "keystore-0.json", pubkey := some "ab54cd" }]
      = [(secureDirSegs ++ ["secrets", "0xab54cd"], "hunter2hunter2")]
    ∧ withinDir secureDirSegs
        (pathJoin (secureDirSegs ++ ["secrets"]) ("0x" ++ "ab54cd")) = true
    ∧ isHexOnly "ab54cd" = true := by
  refine ⟨?_, ?_, ?_⟩ <;> rfl

/-! ## Keystore password prompt (`keyManager.js`, `promptAndSavePassword`)

The secure-store variant of `promptAndSavePassword(installDir,
{ firstTime })`: `password` is the first prompt's entry and `confirm` the
value a second prompt would return — the source reads the second prompt
only when `firstTime` is set.
-/

/-- Outcome of `promptAndSavePassword`. -/
inductive PromptOutcome
  /-- `process.exit(exitCode)` ran. -/
  | fatal (exitCode : Nat)
  /-- The password file was written and its path returned. -/
  | saved
deriving DecidableEq, Repr

/-- `promptAndSavePassword` from `keyManager.js`: a password shorter than 8
characters is fatal (`process.exit(1)`); when `firstTime`, a confirmation
prompt is read and a mismatch is fatal (`process.exit(1)`); otherwise the
password is written (mode 0600) to the secure password path.  Returns the
outcome together with the files written as (path, content) pairs. -/
def promptAndSavePassword (firstTime : Bool) (password confirm : String)
    (passwordPath : String) : PromptOutcome × List (String × String) :=
  if password.length < 8 then
    (PromptOutcome.fatal 1, [])
  else if firstTime then
    if password = confirm then (PromptOutcome.saved, [(passwordPath, password)])
    else (PromptOutcome.fatal 1, [])
  else
    (PromptOutcome.saved, [(passwordPath, password)])

/-- **C6.** The keystore-password prompt: a too-short password is fatal
before any file is written; the confirmation entry is consulted only
during first-time setup (on a routine restart the result does not depend
on it and a single prompt suffices); a mismatched first-time confirmation
is fatal with no file written from either entered value; and otherwise the
entered password is saved. -/
theorem promptAndSavePassword_spec (firstTime : Bool)
    (password confirm other passwordPath : String) :
    (password.length < 8 →
      promptAndSavePassword firstTime password confirm passwordPath
        = (PromptOutcome.fatal 1, []))
    ∧ promptAndSavePassword false password confirm passwordPath
        = promptAndSavePassword false password other passwordPath
    ∧ (8 ≤ password.length → password ≠ confirm →
      promptAndSavePassword true password confirm passwordPath
        = (PromptOutcome.fatal 1, []))
    ∧ (8 ≤ password.length →
      promptAndSavePassword false password confirm passwordPath
        = (PromptOutcome.saved, [(passwordPath, password)]))
    ∧ (8 ≤ password.length → password = confirm →
      promptAndSavePassword true password confirm passwordPath
        = (PromptOutcome.saved, [(passwordPath, password)])) := by
  refine ⟨?_, ?_, ?_, ?_, ?_⟩
  · intro h
    simp [promptAndSavePassword, h]
  · by_cases h : password.length < 8 <;> simp [promptAndSavePassword, h]
  · intro h hne
    simp [promptAndSavePassword, Nat.not_lt.mpr h, hne]
  · intro h
    simp [promptAndSavePassword, Nat.not_lt.mpr h]
  · intro h heq
    subst heq
    simp [promptAndSavePassword, Nat.not_lt.mpr h]

/-- Witness for `promptAndSavePassword_spec`: a first-time setup with a
long-enough password and a mismatched confirmation is fatal with nothing
written, and a routine restart saves the password with a single prompt. -/
theorem promptAndSavePassword_spec_witness :
    promptAndSavePassword true "correct horse" "battery staple" "/dev/shm/bgclient-1/password.txt"
      = (PromptOutcome.fatal 1, [])
    ∧ promptAndSavePassword false "correct horse" "battery staple" "/dev/shm/bgclient-1/password.txt"
      = (PromptOutcome.saved,
          [("/dev/shm/bgclient-1/password.txt", "correct horse")]) := by
  constructor
  · exact (promptAndSavePassword_spec true "correct horse" "battery staple" ""
      "/dev/shm/bgclient-1/password.txt").2.2.1 (by decide) (by decide)
  · exact (promptAndSavePassword_spec false "correct horse" "battery staple" ""
      "/dev/shm/bgclient-1/password.txt").2.2.2.1 (by decide)

/-! ## Persisted run configuration (`commandLineOptions.js`)

`saveOptionsToFile()` writes `JSON.stringify(options)` (mode 0600);
`loadOptionsFromFile()` parses the file and validates the result before
returning it.  `JSON.stringify` followed by `JSON.parse` reproduces the
same JSON tree, so the round trip is modelled at the level of JSON
values.
-/

/-- A JSON value, as produced by `JSON.parse`. -/
inductive Json
  | null
  | bool (b : Bool)
  | num (n : Int)
  | str (s : String)
  | arr (elems : List Json)
  | obj (fields : List (String × Json))
deriving Repr

/-- Result of a JavaScript property read `options[k]` on an object
produced by `JSON.parse`: an own key yields its JSON value; otherwise the
keys `__proto__` and `constructor` resolve through `Object.prototype` — to
the prototype object and to the `Object` constructor function
respectively, never to `undefined` — and every other key read by
`loadOptionsFromFile` yields `undefined`. -/
inductive JsValue
  | undefined
  | json (j : Json)
  | objectPrototype
  | objectConstructorFn
deriving Repr

/-- Whether the property read produced `undefined`. -/
def JsValue.isUndef : JsValue → Bool
  | JsValue.undefined => true
  | _ => false

/-- JavaScript property read on a `JSON.parse` result (see `JsValue`). -/
def jsGet (fields : List (String × Json)) (k : String) : JsValue :=
  match fields.lookup k with
  | some v => JsValue.json v
  | none =>
      if k = "__proto__" then JsValue.objectPrototype
      else if k = "constructor" then JsValue.objectConstructorFn
      else JsValue.undefined

/-- The string-typed fields checked by `loadOptionsFromFile`, in source
order. -/
def stringFields : List String :=
  ["executionClient", "consensusClient", "consensusCheckpoint", "installDir",
   "owner", "feeRecipient", "graffiti", "validatorKeysDir"]

/-- The boolean fields checked by `loadOptionsFromFile`. -/
def boolFields : List String :=
  ["validatorEnabled", "mevBoostEnabled"]

/-- The per-field condition
`options[field] !== undefined && options[field] !== null && typeof options[field] !== "string"`. -/
def stringFieldBad (fields : List (String × Json)) (k : String) : Bool :=
  match jsGet fields k with
  | JsValue.undefined => false
  | JsValue.json Json.null => false
  | JsValue.json (Json.str _) => false
  | _ => true

/-- The per-field condition
`options[field] !== undefined && typeof options[field] !== "boolean"`. -/
def boolFieldBad (fields : List (String × Json)) (k : String) : Bool :=
  match jsGet fields k with
  | JsValue.undefined => false
  | JsValue.json (Json.bool _) => false
  | _ => true

/-- `loadOptionsFromFile()` from `commandLineOptions.js`, after
`JSON.parse` succeeded: rejects a non-object root (`typeof` not object,
`null`, or an array); then throws "suspicious keys detected" when
`options.__proto__ !== undefined || options.constructor !== undefined`;
then type-checks the string fields, boolean fields, `executionPeerPort`
and `consensusPeerPorts`; finally returns the options object.  `.error` is
the thrown exception's message. -/
def loadOptionsValidate (j : Json) : Except String (List (String × Json)) :=
  match j with
  | Json.obj fields =>
      if !(jsGet fields "__proto__").isUndef || !(jsGet fields "constructor").isUndef then
        Except.error "Invalid options file: suspicious keys detected"
      else
        match stringFields.find? (stringFieldBad fields) with
        | some f => Except.error ("Invalid options file: " ++ f ++ " must be a string or null")
        | none =>
            match boolFields.find? (boolFieldBad fields) with
            | some f => Except.error ("Invalid options file: " ++ f ++ " must be a boolean")
            | none =>
                if (match jsGet fields "executionPeerPort" with
                    | JsValue.undefined => false
                    | JsValue.json (Json.num _) => false
                    | _ => true) then
                  Except.error "Invalid options file: executionPeerPort must be a number"
                else if (match jsGet fields "consensusPeerPorts" with
                    | JsValue.undefined => false
                    | JsValue.json (Json.arr _) => false
                    | _ => true) then
                  Except.error "Invalid options file: consensusPeerPorts must be an array"
                else
                  Except.ok fields
  | _ => Except.error "Invalid options file: root must be an object"

/-- The resolved run configuration captured by `saveOptionsToFile()`. -/
structure RunOptions where
  executionClient : String
  consensusClient : String
  executionPeerPort : Int
  consensusPeerPorts : List (Option Int)
  consensusCheckpoint : Option String
  installDir : String
  owner : Option String
  validatorEnabled : Bool
  feeRecipient : Option String
  graffiti : String
  validatorKeysDir : Option String
  mevBoostEnabled : Bool
deriving Repr

/-- A nullable string option as it serializes to JSON. -/
def optStr : Option String → Json
  | none => Json.null
  | some s => Json.str s

/-- A nullable port as it serializes to JSON. -/
def optPort : Option Int → Json
  | none => Json.null
  | some n => Json.num n

/-- The JSON object written by `saveOptionsToFile()`: the twelve option
fields, keys in source order. -/
def saveOptionsJson (o : RunOptions) : Json :=
  Json.obj
    [("executionClient", Json.str o.executionClient),
     ("consensusClient", Json.str o.consensusClient),
     ("executionPeerPort", Json.num o.executionPeerPort),
     ("consensusPeerPorts", Json.arr (o.consensusPeerPorts.map optPort)),
     ("consensusCheckpoint", optStr o.consensusCheckpoint),
     ("installDir", Json.str o.installDir),
     ("owner", optStr o.owner),
     ("validatorEnabled", Json.bool o.validatorEnabled),
     ("feeRecipient", optStr o.feeRecipient),
     ("graffiti", Json.str o.graffiti),
     ("validatorKeysDir", optStr o.validatorKeysDir),
     ("mevBoostEnabled", Json.bool o.mevBoostEnabled)]

theorem jsGet_proto_not_undef (fields : List (String × Json)) :
    (jsGet fields "__proto__").isUndef = false := by
  unfold jsGet
  cases h : fields.lookup "__proto__" <;> simp [h, JsValue.isUndef]

/-- **C4.** The persisted-configuration round trip always fails: for every
configuration, `loadOptionsFromFile` rejects the file written by
`saveOptionsToFile` with "suspicious keys detected", because
`options.__proto__` (and `options.constructor`) is inherited from
`Object.prototype` on every `JSON.parse` result and is therefore never
`undefined` — so no restart ever resumes the prior invocation's saved
settings. -/
theorem loadOptions_rejects_every_saved_file (o : RunOptions) :
    loadOptionsValidate (saveOptionsJson o)
      = Except.error "Invalid options file: suspicious keys detected" := by
  simp [loadOptionsValidate, saveOptionsJson, jsGet_proto_not_undef]

/-- In fact every object root whatsoever — the saved file included — is
rejected by the suspicious-keys check of `loadOptionsFromFile`. -/
theorem loadOptions_rejects_every_object (fields : List (String × Json)) :
    loadOptionsValidate (Json.obj fields)
      = Except.error "Invalid options file: suspicious keys detected" := by
  simp [loadOptionsValidate, jsGet_proto_not_undef]

/-! ## Checkpoint endpoint selector

The repository's `checkpointHealthCheck.js` (imported by `index.js` as
`selectCheckpointUrlForLighthouse` / `selectCheckpointUrlForPrysm`) is not
among the provided source files; the selector below is modelled from the
specification's description of `selectBest`.
-/

/-- One candidate bootstrap endpoint after probing: its URL, whether the
probe succeeded, the age of its reported head, and the probe's round-trip
latency. -/
structure CheckpointCandidate where
  url : String
  reachable : Bool
  headSlotAge : Nat
  latency : Nat
deriving Repr

/-- Modelled from the spec: a candidate is eligible only if reachable with
a head-slot age below the freshness threshold (§3 CheckpointCandidate
invariant). -/
def eligible (freshnessThreshold : Nat) (c : CheckpointCandidate) : Bool :=
  c.reachable && decide (c.headSlotAge < freshnessThreshold)

/-- Modelled from the spec: candidate `c` ranks at least as well as `d` —
freshness first, latency as tiebreak. -/
def ranksLE (c d : CheckpointCandidate) : Bool :=
  decide (c.headSlotAge < d.headSlotAge)
    || (decide (c.headSlotAge = d.headSlotAge) && decide (c.latency ≤ d.latency))

/-- Best-ranked candidate of `c :: rest` (first wins ties). -/
def bestOf (c : CheckpointCandidate) (rest : List CheckpointCandidate) :
    CheckpointCandidate :=
  rest.foldl (fun best d => if ranksLE best d then best else d) c

/-- Modelled from the spec: `selectBest(candidates, …)` — "Ranks eligible
candidates by freshness first, latency as tiebreak; returns the top-ranked
candidate's URL, or none found if zero candidates are eligible"
(`checkpointHealthCheck.js` is not among the provided sources). -/
def selectBest (freshnessThreshold : Nat) (cands : List CheckpointCandidate) :
    Option String :=
  match cands.filter (eligible freshnessThreshold) with
  | [] => none
  | c :: rest => some (bestOf c rest).url

theorem ranksLE_refl (c : CheckpointCandidate) : ranksLE c c = true := by
  simp [ranksLE]

theorem ranksLE_total (c d : CheckpointCandidate)
    (h : ¬ranksLE c d = true) : ranksLE d c = true := by
  simp [ranksLE] at *
  omega

theorem ranksLE_trans {c d e : CheckpointCandidate}
    (h1 : ranksLE c d = true) (h2 : ranksLE d e = true) : ranksLE c e = true := by
  simp [ranksLE] at *
  omega

theorem bestOf_mem (c : CheckpointCandidate) (rest : List CheckpointCandidate) :
    bestOf c rest ∈ c :: rest := by
  induction rest generalizing c with
  | nil => simp [bestOf]
  | cons d rest ih =>
      have hstep : bestOf c (d :: rest) = bestOf (if ranksLE c d then c else d) rest := by
        simp [bestOf, List.foldl_cons]
      have h := ih (if ranksLE c d then c else d)
      rw [hstep]
      rcases List.mem_cons.mp h with h | h
      · rw [h]
        by_cases hc : ranksLE c d = true <;> simp [hc]
      · exact List.mem_cons_of_mem _ (List.mem_cons_of_mem _ h)

theorem bestOf_le (c : CheckpointCandidate) (rest : List CheckpointCandidate) :
    ∀ x ∈ c :: rest, ranksLE (bestOf c rest) x = true := by
  induction rest generalizing c with
  | nil =>
      intro x hx
      simp at hx
      subst hx
      simpa [bestOf] using ranksLE_refl x
  | cons d rest ih =>
      intro x hx
      have hstep : bestOf c (d :: rest) = bestOf (if ranksLE c d then c else d) rest := by
        simp [bestOf, List.foldl_cons]
      have hbs : ranksLE (bestOf (if ranksLE c d then c else d) rest)
          (if ranksLE c d then c else d) = true :=
        ih (if ranksLE c d then c else d) _ (List.mem_cons_self _ _)
      have hsc : ranksLE (if ranksLE c d then c else d) c = true := by
        by_cases hc : ranksLE c d = true
        · simpa [hc] using ranksLE_refl c
        · simpa [hc] using ranksLE_total c d hc
      have hsd : ranksLE (if ranksLE c d then c else d) d = true := by
        by_cases hc : ranksLE c d = true
        · simp [hc]
        · simpa [hc] using ranksLE_refl d
      rcases List.mem_cons.mp hx with hx | hx
      · subst hx
        rw [hstep]
        exact ranksLE_trans hbs hsc
      · rcases List.mem_cons.mp hx with hx | hx
        · subst hx
          rw [hstep]
          exact ranksLE_trans hbs hsd
        · rw [hstep]
          exact ih (if ranksLE c d then c else d) x (List.mem_cons_of_mem _ hx)

/-- **C7.** `selectBest` returns `none` ("none found") whenever no
candidate is reachable, and whenever it returns a URL that URL belongs to
an eligible candidate ranking at least as well — fresher head first, lower
latency on ties — as every eligible candidate. -/
theorem selectBest_spec (thr : Nat) (cands : List CheckpointCandidate) :
    ((∀ c ∈ cands, c.reachable = false) → selectBest thr cands = none)
    ∧ (∀ url, selectBest thr cands = some url →
        ∃ c ∈ cands, eligible thr c = true ∧ c.url = url
          ∧ ∀ d ∈ cands, eligible thr d = true → ranksLE c d = true) := by
  constructor
  · intro hall
    have hfil : cands.filter (eligible thr) = [] := by
      refine List.filter_eq_nil_iff.mpr ?_
      intro a ha
      simp [eligible, hall a ha]
    simp [selectBest, hfil]
  · intro url hurl
    rcases hfil : cands.filter (eligible thr) with _ | ⟨c, rest⟩
    · simp [selectBest, hfil] at hurl
    · have hb := bestOf_mem c rest
      rw [← hfil] at hb
      have hbc := List.mem_filter.mp hb
      refine ⟨bestOf c rest, hbc.1, hbc.2, ?_, ?_⟩
      · simpa [selectBest, hfil] using hurl
      · intro d hd helig
        have hdm : d ∈ cands.filter (eligible thr) := List.mem_filter.mpr ⟨hd, helig⟩
        rw [hfil] at hdm
        exact bestOf_le c rest d hdm

/-- Witness for `selectBest_spec`: with every candidate unreachable the
selector reports none found. -/
theorem selectBest_spec_witness :
    selectBest 100
      [{ url := "https://a.example", reachable := false, headSlotAge := 3, latency := 5 }]
      = none := by
  refine (selectBest_spec 100 _).1 ?_
  intro c hc
  simp at hc
  subst hc
  rfl

end BGClient
